import Mathlib

/-!
Verification of the concurrency core in `src/bot/src/web.rs` (cold-clear web bot
interface): the client `Interface`, the coordinator loop in `bot_thread`, and
the worker loop in `thinker`.

Modelling conventions:
* Game data types (`Piece`, `FallingPiece`, `Move`, `Info`, `Board`) and the
  algorithm's task/result types (`Thinker<E>`, `ThinkResult<E>`) are opaque to
  this layer; they are embedded as `Nat` (value semantics, never inspected).
* A Rust panic is embedded as `Option.none` of the constructor.
* Channel endpoints (webutil, not under `src/`) follow the spec's error
  taxonomy: an endpoint is either alive (sends succeed, are delivered) or
  closed (every send fails, nothing is delivered); closure is permanent.
* The coordinator's `select!` race is driven by an externally chosen list of
  `SelEvent`s (the scheduler's choices), so every interleaving is quantified.
-/

namespace CC

/-- Opaque game piece (libtetris `Piece`). -/
abbrev Piece := Nat

/-- Opaque falling-piece placement (libtetris `FallingPiece`). -/
abbrev FallingPiece := Nat

/-- Opaque chosen move (`crate::moves::Move`). -/
abbrev Move := Nat

/-- Opaque diagnostic info (`crate::Info`). -/
abbrev Info := Nat

/-- Opaque board (libtetris `Board`). -/
abbrev Board := Nat

/-- Opaque unit of work for a worker (`Thinker<E>`). -/
abbrev Thinker := Nat

/-- Opaque result of executing one `Thinker` (`ThinkResult<E>`). -/
abbrev ThinkResult := Nat

/-- A finished decision delivered to the client: the `(Move, Info)` pair sent
on the worker's output channel. -/
abbrev Decision := Move × Info

/-- Commands sent from the client `Interface` to the bot thread, mirroring the
`BotMsg` variants used in `src/bot/src/web.rs` (`NextMove(u32)`,
`NewPiece(Piece)`, `Reset { field, b2b, combo }`, `ForceAnalysisLine(Vec<FallingPiece>)`).
The `field: [[bool; 10]; 40]` array is embedded as a list of rows. -/
inductive BotMsg where
  | nextMove (incoming : Nat)
  | newPiece (piece : Piece)
  | reset (field : List (List Bool)) (b2b : Bool) (combo : Nat)
  | forceAnalysisLine (path : List FallingPiece)
  deriving Repr, DecidableEq

/-- The options record; only the `threads` field is read by
`src/bot/src/web.rs` (`options.threads` at lines 35 and 136). -/
structure Options where
  threads : Nat
  deriving Repr, DecidableEq

/-- Client handle state, embedding `pub struct Interface` of
`src/bot/src/web.rs`. The Rust struct holds `dead: bool` and a
`worker: Worker<BotMsg, (Move, Info)>`; the worker's two channel endpoints are
embedded by `sendClosed` (command path to the bot thread), `recvClosed` and
`outBuf` (buffered decisions on the output path). -/
structure Interface where
  dead : Bool
  sendClosed : Bool
  recvClosed : Bool
  outBuf : List Decision
  deriving Repr, DecidableEq

/-- Modelled from the spec: `webutil::worker::Worker::send` (not under `src/`).
Per the spec's error taxonomy, a send on a live endpoint succeeds and delivers
the message; a send on a closed endpoint fails and delivers nothing. Returns
`(is_err, delivered messages)`. -/
def chanSend {α : Type} (closed : Bool) (msg : α) : Bool × List α :=
  if closed then (true, []) else (false, [msg])

/-- Modelled from the spec: `webutil::worker::Worker::try_recv` (not under
`src/`). Non-blocking: returns the next buffered message if one exists, else
nothing; it is a total function of the buffer (it never suspends). -/
def tryRecv {α : Type} (buf : List α) : Option α × List α :=
  match buf with
  | [] => (none, [])
  | d :: rest => (some d, rest)

/-- Embeds `Interface::launch` (`src/bot/src/web.rs` lines 25-45): panics
(embedded as `none`) when `options.threads == 0`, otherwise returns the handle
`Interface { dead: false, worker }` with fresh (open, empty) channels. -/
def Interface.launch (_board : Board) (options : Options) : Option Interface :=
  if options.threads = 0 then
    none
  else
    some { dead := false, sendClosed := false, recvClosed := false, outBuf := [] }

/-- Embeds `Interface::is_dead`: returns the liveness flag, no side effects. -/
def Interface.is_dead (s : Interface) : Bool :=
  s.dead

/-- Embeds `Interface::request_next_move`: sends `BotMsg::NextMove(incoming)`;
if the send errors the dead flag is set; nothing is returned to the caller (the
delivered-message list is model instrumentation, not a return value). -/
def Interface.request_next_move (s : Interface) (incoming : Nat) :
    Interface × List BotMsg :=
  let r := chanSend s.sendClosed (BotMsg.nextMove incoming)
  ({ s with dead := if r.1 then true else s.dead }, r.2)

/-- Embeds `Interface::poll_next_move`: delegates to the worker's `try_recv`;
returns the next buffered `(Move, Info)` if any, else `none`. -/
def Interface.poll_next_move (s : Interface) : Option Decision × Interface :=
  let r := tryRecv s.outBuf
  (r.1, { s with outBuf := r.2 })

/-- Embeds `Interface::add_next_piece`: sends `BotMsg::NewPiece(piece)`; on
send error sets the dead flag. -/
def Interface.add_next_piece (s : Interface) (piece : Piece) :
    Interface × List BotMsg :=
  let r := chanSend s.sendClosed (BotMsg.newPiece piece)
  ({ s with dead := if r.1 then true else s.dead }, r.2)

/-- Embeds `Interface::reset`: sends `BotMsg::Reset { field, b2b, combo }`; on
send error sets the dead flag. -/
def Interface.reset (s : Interface) (field : List (List Bool)) (b2b_active : Bool)
    (combo : Nat) : Interface × List BotMsg :=
  let r := chanSend s.sendClosed (BotMsg.reset field b2b_active combo)
  ({ s with dead := if r.1 then true else s.dead }, r.2)

/-- Embeds `Interface::force_analysis_line`: sends
`BotMsg::ForceAnalysisLine(path)`; on send error sets the dead flag. -/
def Interface.force_analysis_line (s : Interface) (path : List FallingPiece) :
    Interface × List BotMsg :=
  let r := chanSend s.sendClosed (BotMsg.forceAnalysisLine path)
  ({ s with dead := if r.1 then true else s.dead }, r.2)

/-- One public operation on the client handle. -/
inductive Op where
  | requestNextMove (incoming : Nat)
  | pollNextMove
  | addNextPiece (piece : Piece)
  | reset (field : List (List Bool)) (b2b : Bool) (combo : Nat)
  | forceAnalysisLine (path : List FallingPiece)
  | isDead
  deriving Repr, DecidableEq

/-- Runs one handle operation; returns the new handle state and the commands
actually delivered to the bot thread by that operation. -/
def runOp (s : Interface) (o : Op) : Interface × List BotMsg :=
  match o with
  | Op.requestNextMove n => s.request_next_move n
  | Op.pollNextMove => ((s.poll_next_move).2, [])
  | Op.addNextPiece p => s.add_next_piece p
  | Op.reset f b c => s.reset f b c
  | Op.forceAnalysisLine p => s.force_analysis_line p
  | Op.isDead => (s, [])

/-- Runs a sequence of handle operations (delivered commands discarded). -/
def runOps (s : Interface) (ops : List Op) : Interface :=
  ops.foldl (fun t o => (runOp t o).1) s

/-- An event affecting the handle: a client-side operation, or an environment
event (the bot thread terminating closes the command path or the output path;
the bot thread delivering a decision appends to the output buffer). Channel
closure is permanent: no event reopens a channel. -/
inductive Ev where
  | op (o : Op)
  | closeSend
  | closeRecv
  | deliver (d : Decision)
  deriving Repr, DecidableEq

/-- Applies one event to the handle state. -/
def runEv (s : Interface) (e : Ev) : Interface :=
  match e with
  | Ev.op o => (runOp s o).1
  | Ev.closeSend => { s with sendClosed := true }
  | Ev.closeRecv => { s with recvClosed := true }
  | Ev.deliver d => if s.recvClosed then s else { s with outBuf := s.outBuf ++ [d] }

/-- Applies a sequence of events to the handle state. -/
def runEvents (s : Interface) (evs : List Ev) : Interface :=
  evs.foldl runEv s

/-- Result of one call to `AsyncBotState::think` in the coordinator loop
(`src/bot/src/web.rs` line 151): the updated state, the new tasks
(`new_thinks`), and the decisions emitted in order through the closure
`|mv, info| send.send(&(mv, info))` during the call. -/
structure ThinkStep (σ : Type) where
  st : σ
  tasks : List Thinker
  outs : List Decision
  deriving Repr, DecidableEq

/-- The algorithm-state capability used by the coordinator loop: the four
`AsyncBotState` entry points called from `bot_thread` (`is_dead`, `think`,
`message`, `think_done`). `AsyncBotState` lives outside `src/`, so the loop is
verified for an arbitrary instance of this interface. -/
structure Algo (σ : Type) where
  is_dead : σ → Bool
  think : σ → ThinkStep σ
  message : σ → BotMsg → σ
  think_done : σ → ThinkResult → σ

/-- Outcome of one `select!` race in the coordinator loop: either the command
channel fires (`msg (some m)` a command, `msg none` closure of the client
side), or the result channel fires with a completed `ThinkResult`. The list
of these events is the scheduler's choice, quantified over. -/
inductive SelEvent where
  | msg (m : Option BotMsg)
  | think (t : ThinkResult)
  deriving Repr, DecidableEq

/-- One observable action of the coordinator, in program order: emitting a
decision on the output channel, dispatching a task on the task channel, or
consuming one event at the `select!` suspension point. -/
inductive CAct where
  | emit (d : Decision)
  | dispatch (t : Thinker)
  | recvMsg (m : BotMsg)
  | recvThink (t : ThinkResult)
  deriving Repr, DecidableEq

/-- How a run of the coordinator loop ended: `deadExit` (the `while
!state.is_dead()` condition failed), `closed` (the command channel reported
closure, the `None => break` arm), or `blocked` (still suspended at `select!`,
the scheduled events ran out — the loop did not terminate). -/
inductive LoopExit where
  | deadExit
  | closed
  | blocked
  deriving Repr, DecidableEq

/-- Result of running the coordinator loop on a list of scheduled select
events: final algorithm state, the flat trace of coordinator actions in
program order, how the run ended, and the scheduled events left unconsumed. -/
structure LoopResult (σ : Type) where
  final : σ
  trace : List CAct
  exit : LoopExit
  leftover : List SelEvent
  deriving Repr, DecidableEq

/-- Embeds the coordinator loop of `bot_thread` (`src/bot/src/web.rs` lines
150-166): while the state is not dead, call `state.think` (emitting its ready
decisions in order during the call), dispatch each new task in emission order,
then suspend on the race of the command channel and the result channel; a
command is applied with `state.message`, a result with `state.think_done`, and
closure of the command channel breaks the loop. -/
def coordLoop {σ : Type} (A : Algo σ) : σ → List SelEvent → LoopResult σ
  | c, [] =>
    if A.is_dead c then ⟨c, [], LoopExit.deadExit, []⟩
    else
      let t := A.think c
      ⟨t.st, t.outs.map CAct.emit ++ t.tasks.map CAct.dispatch, LoopExit.blocked, []⟩
  | c, ev :: rest =>
    if A.is_dead c then ⟨c, [], LoopExit.deadExit, ev :: rest⟩
    else
      let t := A.think c
      let acts := t.outs.map CAct.emit ++ t.tasks.map CAct.dispatch
      match ev with
      | SelEvent.msg none => ⟨t.st, acts, LoopExit.closed, rest⟩
      | SelEvent.msg (some m) =>
        let r := coordLoop A (A.message t.st m) rest
        ⟨r.final, acts ++ CAct.recvMsg m :: r.trace, r.exit, r.leftover⟩
      | SelEvent.think tr =>
        let r := coordLoop A (A.think_done t.st tr) rest
        ⟨r.final, acts ++ CAct.recvThink tr :: r.trace, r.exit, r.leftover⟩

/-- Specification-side iteration-order predicate, following the spec's words
(section 4.2, steps 1-3): in every iteration the ready outputs are emitted
first (in order), then the new tasks are dispatched in emission order, and
only then does the coordinator consume one event at the suspension point; a
dead state stops the loop before any emission or dispatch. -/
inductive SpecOrder {σ : Type} (A : Algo σ) : σ → List CAct → Prop where
  | deadStop (c : σ) (h : A.is_dead c = true) : SpecOrder A c []
  | lastIter (c : σ) (h : A.is_dead c = false) :
      SpecOrder A c
        ((A.think c).outs.map CAct.emit ++ (A.think c).tasks.map CAct.dispatch)
  | stepMsg (c : σ) (m : BotMsg) (tl : List CAct) (h : A.is_dead c = false)
      (ih : SpecOrder A (A.message (A.think c).st m) tl) :
      SpecOrder A c
        ((A.think c).outs.map CAct.emit ++
          ((A.think c).tasks.map CAct.dispatch ++ CAct.recvMsg m :: tl))
  | stepThink (c : σ) (tr : ThinkResult) (tl : List CAct) (h : A.is_dead c = false)
      (ih : SpecOrder A (A.think_done (A.think c).st tr) tl) :
      SpecOrder A c
        ((A.think c).outs.map CAct.emit ++
          ((A.think c).tasks.map CAct.dispatch ++ CAct.recvThink tr :: tl))

/-- One observable action of a worker: acquiring a task from the shared
supply, or emitting a result to the shared completion sink. -/
inductive WAct where
  | acquire (t : Thinker)
  | emit (r : ThinkResult)
  deriving Repr, DecidableEq

/-- Embeds the worker loop of `thinker` (`src/bot/src/web.rs` lines 177-179):
`while let Some(v) = recv.recv().await { send.send(&v.think()); }` — acquire
one task, execute it with `exec` (embedding `Thinker::think`, external to this
layer), emit exactly one result, repeat; exit cleanly when the supply closes.
The argument list is the sequence of tasks this worker receives before its
supply channel closes. -/
def thinker (exec : Thinker → ThinkResult) : List Thinker → List WAct
  | [] => []
  | t :: rest => WAct.acquire t :: WAct.emit (exec t) :: thinker exec rest

/-- Embeds the pool-unit loop of `bot_thread` (`src/bot/src/web.rs` lines
141-144): acquire one `Thinker` from the shared `thinker_recv`, forward it to
the unit's inner worker (which runs `thinker` and replies with `exec t`),
await that single reply, send it to the shared `result_send`, repeat; exit
cleanly when the shared supply closes. -/
def poolUnit (exec : Thinker → ThinkResult) : List Thinker → List WAct
  | [] => []
  | t :: rest => WAct.acquire t :: WAct.emit (exec t) :: poolUnit exec rest

/-- Results emitted in a worker trace, in order. -/
def emitted : List WAct → List ThinkResult
  | [] => []
  | WAct.acquire _ :: rest => emitted rest
  | WAct.emit r :: rest => r :: emitted rest

/-- Tasks acquired in a worker trace, in order. -/
def acquired : List WAct → List Thinker
  | [] => []
  | WAct.acquire t :: rest => t :: acquired rest
  | WAct.emit _ :: rest => acquired rest

/-- One spawned worker unit; `taskChanId` and `resultChanId` identify the
channel endpoints cloned into it (all units share the same two channels). -/
structure WorkerUnit where
  taskChanId : Nat
  resultChanId : Nat
  deriving Repr, DecidableEq

/-- Embeds the spawn loop of `bot_thread` (`src/bot/src/web.rs` lines
136-146): `for _ in 0..options.threads` spawn one unit holding a clone of the
shared task receiver and the shared result sender. -/
def spawnWorkers (taskChanId resultChanId : Nat) : Nat → List WorkerUnit
  | 0 => []
  | n + 1 => spawnWorkers taskChanId resultChanId n ++ [⟨taskChanId, resultChanId⟩]

/-- The worker pool constructed by `bot_thread` for the given options: the
spawn loop run `options.threads` times over the two shared channels. -/
def botThreadPool (options : Options) (taskChanId resultChanId : Nat) :
    List WorkerUnit :=
  spawnWorkers taskChanId resultChanId options.threads

/-- Concrete algorithm instance over `σ := Nat` used to evaluate the
coordinator loop at concrete inputs: dead at states `≥ 5`, one task and one
decision per think step. -/
def algoA : Algo Nat where
  is_dead := fun s => decide (5 ≤ s)
  think := fun s => ⟨s, [s], [(s, s)]⟩
  message := fun s _ => s + 1
  think_done := fun s t => s + t + 1

/-- C2: for every board, evaluator, and options with `options.threads == 0`,
`launch` fails fatally (panics, embedded as `none`) rather than returning a
handle; for every options with `threads ≥ 1`, `launch` returns a handle. -/
theorem launch_threads_spec (board : Board) (options : Options) :
    (options.threads = 0 → Interface.launch board options = none) ∧
    (1 ≤ options.threads →
      ∃ h : Interface, Interface.launch board options = some h) := by
  constructor
  · intro h
    simp [Interface.launch, h]
  · intro h
    have hne : options.threads ≠ 0 := by omega
    exact ⟨⟨false, false, false, []⟩, by simp [Interface.launch, hne]⟩

/-- Witness for `launch_threads_spec` at `threads = 0` and `threads = 1`. -/
theorem launch_threads_spec_witness :
    (Interface.launch 0 ⟨0⟩ = none) ∧
    ∃ h : Interface, Interface.launch 0 ⟨1⟩ = some h :=
  ⟨(launch_threads_spec 0 ⟨0⟩).1 rfl, (launch_threads_spec 0 ⟨1⟩).2 (by decide)⟩

/-- Every handle operation preserves a dead flag that is already set. -/
theorem runOp_preserves_dead (s : Interface) (o : Op) (h : s.dead = true) :
    (runOp s o).1.dead = true := by
  cases o <;>
    simp [runOp, Interface.request_next_move, Interface.add_next_piece,
      Interface.reset, Interface.force_analysis_line, Interface.poll_next_move,
      chanSend, h]

/-- C3: the liveness flag is monotone — for every sequence of handle
operations, once `is_dead` returns `true` it returns `true` after every
subsequent operation; no operation resets the flag to alive. -/
theorem dead_is_monotone (s : Interface) (ops : List Op) (h : s.is_dead = true) :
    (runOps s ops).is_dead = true := by
  induction ops generalizing s with
  | nil => simpa [runOps] using h
  | cons o rest ih =>
    have hstep : (runOp s o).1.dead = true :=
      runOp_preserves_dead s o (by simpa [Interface.is_dead] using h)
    exact ih (runOp s o).1 (by simpa [Interface.is_dead] using hstep)

/-- Witness for `dead_is_monotone` on a dead handle and a concrete
operation sequence. -/
theorem dead_is_monotone_witness :
    (runOps ⟨true, true, false, []⟩
      [Op.requestNextMove 0, Op.pollNextMove, Op.isDead]).is_dead = true :=
  dead_is_monotone ⟨true, true, false, []⟩
    [Op.requestNextMove 0, Op.pollNextMove, Op.isDead] (by decide)

/-- C4: for each of `request_next_move`, `add_next_piece`, `reset`, and
`force_analysis_line`, a failed send (closed command path) sets the dead flag
and a successful send leaves it unchanged; no error is surfaced to the caller
(each operation is a total function into a handle state). -/
theorem send_failure_handling (s : Interface) (n : Nat) (p : Piece)
    (f : List (List Bool)) (b : Bool) (c : Nat) (path : List FallingPiece) :
    (s.sendClosed = true →
      (s.request_next_move n).1.dead = true ∧
      (s.add_next_piece p).1.dead = true ∧
      (s.reset f b c).1.dead = true ∧
      (s.force_analysis_line path).1.dead = true) ∧
    (s.sendClosed = false →
      (s.request_next_move n).1.dead = s.dead ∧
      (s.add_next_piece p).1.dead = s.dead ∧
      (s.reset f b c).1.dead = s.dead ∧
      (s.force_analysis_line path).1.dead = s.dead) := by
  constructor <;> intro h <;>
    simp [Interface.request_next_move, Interface.add_next_piece, Interface.reset,
      Interface.force_analysis_line, chanSend, h]

/-- Witness for `send_failure_handling` on a closed and on an open handle. -/
theorem send_failure_handling_witness :
    ((Interface.request_next_move ⟨false, true, false, []⟩ 0).1.dead = true) ∧
    ((Interface.request_next_move ⟨false, false, false, []⟩ 0).1.dead = false) :=
  ⟨((send_failure_handling ⟨false, true, false, []⟩ 0 0 [] false 0 []).1 rfl).1,
   ((send_failure_handling ⟨false, false, false, []⟩ 0 0 [] false 0 []).2 rfl).1⟩

/-- C9: `poll_next_move` is non-blocking — it is a total function of the
handle state that returns `some` of the next buffered decision when one
exists and `none` when none exists; it never suspends. -/
theorem poll_next_move_nonblocking (s : Interface) :
    (s.outBuf = [] → (s.poll_next_move).1 = none) ∧
    (∀ d rest, s.outBuf = d :: rest →
      (s.poll_next_move).1 = some d ∧ (s.poll_next_move).2.outBuf = rest) := by
  constructor
  · intro h
    simp [Interface.poll_next_move, tryRecv, h]
  · intro d rest h
    simp [Interface.poll_next_move, tryRecv, h]

/-- Witness for `poll_next_move_nonblocking` on an empty and a nonempty
output buffer. -/
theorem poll_next_move_nonblocking_witness :
    ((Interface.poll_next_move ⟨false, false, false, []⟩).1 = none) ∧
    ((Interface.poll_next_move ⟨false, false, false, [(1, 2)]⟩).1 = some (1, 2)) :=
  ⟨(poll_next_move_nonblocking ⟨false, false, false, []⟩).1 rfl,
   ((poll_next_move_nonblocking ⟨false, false, false, [(1, 2)]⟩).2 (1, 2) [] rfl).1⟩

/-- C10: `poll_next_move` never modifies the dead flag — even on a closed or
empty output channel it returns `none` and leaves the flag unchanged — and
the flag is `false` immediately after `launch` returns. -/
theorem poll_preserves_dead_flag (s : Interface) (board : Board)
    (options : Options) (h : Interface) :
    ((s.poll_next_move).2.dead = s.dead) ∧
    (s.recvClosed = true → s.outBuf = [] →
      (s.poll_next_move).1 = none ∧ (s.poll_next_move).2.dead = s.dead) ∧
    (Interface.launch board options = some h → h.dead = false) := by
  refine ⟨rfl, ?_, ?_⟩
  · intro _ hbuf
    exact ⟨by simp [Interface.poll_next_move, tryRecv, hbuf], rfl⟩
  · intro hl
    simp only [Interface.launch] at hl
    split at hl
    · exact Option.noConfusion hl
    · cases hl
      rfl

/-- Witness for `poll_preserves_dead_flag` on a closed, empty, dead-flagged
handle and on the handle returned by a concrete `launch`. -/
theorem poll_preserves_dead_flag_witness :
    ((Interface.poll_next_move ⟨true, false, true, []⟩).1 = none) ∧
    ((Interface.poll_next_move ⟨true, false, true, []⟩).2.dead = true) ∧
    (Interface.dead ⟨false, false, false, []⟩ = false) :=
  ⟨((poll_preserves_dead_flag ⟨true, false, true, []⟩ 0 ⟨1⟩
      ⟨false, false, false, []⟩).2.1 rfl rfl).1,
   ((poll_preserves_dead_flag ⟨true, false, true, []⟩ 0 ⟨1⟩
      ⟨false, false, false, []⟩).2.1 rfl rfl).2,
   (poll_preserves_dead_flag ⟨true, false, true, []⟩ 0 ⟨1⟩
      ⟨false, false, false, []⟩).2.2 (by decide)⟩

/-- Handle-state invariant: a set dead flag implies the command path to the
coordinator is closed. -/
def DeadImpClosed (s : Interface) : Prop :=
  s.dead = true → s.sendClosed = true

/-- Every handle operation preserves `DeadImpClosed`. -/
theorem runOp_inv (s : Interface) (o : Op) (h : DeadImpClosed s) :
    DeadImpClosed (runOp s o).1 := by
  have hsend : (runOp s o).1.sendClosed = s.sendClosed := by
    cases o <;>
      simp [runOp, Interface.request_next_move, Interface.add_next_piece,
        Interface.reset, Interface.force_analysis_line, Interface.poll_next_move]
  intro hd
  rw [hsend]
  by_cases hc : s.sendClosed = true
  · exact hc
  · apply h
    have hb : s.sendClosed = false := by
      simpa using hc
    cases o <;>
      simp [runOp, Interface.request_next_move, Interface.add_next_piece,
        Interface.reset, Interface.force_analysis_line, Interface.poll_next_move,
        chanSend, hb] at hd <;>
      exact hd

/-- Every event preserves `DeadImpClosed`. -/
theorem runEv_inv (s : Interface) (e : Ev) (h : DeadImpClosed s) :
    DeadImpClosed (runEv s e) := by
  cases e with
  | op o => exact runOp_inv s o h
  | closeSend => intro _; rfl
  | closeRecv => exact fun hd => h hd
  | deliver d =>
    simp only [runEv]
    split
    · exact h
    · exact fun hd => h hd

/-- Every event sequence preserves `DeadImpClosed`. -/
theorem runEvents_inv (s : Interface) (evs : List Ev) (h : DeadImpClosed s) :
    DeadImpClosed (runEvents s evs) := by
  induction evs generalizing s with
  | nil => exact h
  | cons e rest ih => exact ih (runEv s e) (runEv_inv s e h)

/-- On a closed command path, no operation delivers any command. -/
theorem runOp_delivers_nothing (s : Interface) (o : Op)
    (h : s.sendClosed = true) : (runOp s o).2 = [] := by
  cases o <;>
    simp [runOp, Interface.request_next_move, Interface.add_next_piece,
      Interface.reset, Interface.force_analysis_line, chanSend, h]

/-- C7: once a handle launched by `launch` has its dead flag set (after any
sequence of operations and environment events), no subsequent operation
delivers any command to the coordinator — subsequent sends are silent
no-ops. -/
theorem dead_handle_sends_nothing (board : Board) (options : Options)
    (h0 : Interface) (evs : List Ev) (o : Op)
    (hl : Interface.launch board options = some h0)
    (hd : (runEvents h0 evs).is_dead = true) :
    (runOp (runEvents h0 evs) o).2 = [] := by
  have hinv0 : DeadImpClosed h0 := by
    simp only [Interface.launch] at hl
    split at hl
    · exact Option.noConfusion hl
    · cases hl
      intro hc
      exact Bool.noConfusion hc
  have hinv := runEvents_inv h0 evs hinv0
  exact runOp_delivers_nothing _ o (hinv (by simpa [Interface.is_dead] using hd))

/-- Witness for `dead_handle_sends_nothing`: a concrete launch, channel
closure, a failed send setting the flag, then a send delivering nothing. -/
theorem dead_handle_sends_nothing_witness :
    ((runEvents ⟨false, false, false, []⟩
        [Ev.closeSend, Ev.op (Op.requestNextMove 0)]).is_dead = true) ∧
    ((runOp (runEvents ⟨false, false, false, []⟩
        [Ev.closeSend, Ev.op (Op.requestNextMove 0)]) (Op.addNextPiece 3)).2 = []) :=
  ⟨by decide,
   dead_handle_sends_nothing 0 ⟨1⟩ ⟨false, false, false, []⟩
     [Ev.closeSend, Ev.op (Op.requestNextMove 0)] (Op.addNextPiece 3)
     (by decide) (by decide)⟩

/-- A dead-exit run of the coordinator loop ends in a state the algorithm
reports dead. -/
theorem coordLoop_exit_dead_final {σ : Type} (A : Algo σ) (c : σ)
    (evs : List SelEvent) (h : (coordLoop A c evs).exit = LoopExit.deadExit) :
    A.is_dead (coordLoop A c evs).final = true := by
  induction evs generalizing c with
  | nil =>
    cases hA : A.is_dead c
    · simp [coordLoop, hA] at h
    · simp [coordLoop, hA]
  | cons ev rest ih =>
    cases hA : A.is_dead c
    · cases ev with
      | msg m =>
        cases m with
        | none => simp [coordLoop, hA] at h
        | some mm =>
          simp only [coordLoop, hA] at h ⊢
          simp only [Bool.false_eq_true, if_false] at h ⊢
          exact ih _ h
      | think tr =>
        simp only [coordLoop, hA] at h ⊢
        simp only [Bool.false_eq_true, if_false] at h ⊢
        exact ih _ h
    · simp [coordLoop, hA]

/-- A closed-exit run of the coordinator loop consumed a closure report from
the command channel, leaving the later scheduled events unconsumed. -/
theorem coordLoop_exit_closed_consumed {σ : Type} (A : Algo σ) (c : σ)
    (evs : List SelEvent) (h : (coordLoop A c evs).exit = LoopExit.closed) :
    ∃ pre, evs = pre ++ SelEvent.msg none :: (coordLoop A c evs).leftover := by
  induction evs generalizing c with
  | nil =>
    cases hA : A.is_dead c <;> simp [coordLoop, hA] at h
  | cons ev rest ih =>
    cases hA : A.is_dead c
    · cases ev with
      | msg m =>
        cases m with
        | none => exact ⟨[], by simp [coordLoop, hA]⟩
        | some mm =>
          simp only [coordLoop, hA, Bool.false_eq_true, if_false] at h ⊢
          obtain ⟨pre, hpre⟩ := ih _ h
          refine ⟨SelEvent.msg (some mm) :: pre, ?_⟩
          simpa using congrArg (fun l => SelEvent.msg (some mm) :: l) hpre
      | think tr =>
        simp only [coordLoop, hA, Bool.false_eq_true, if_false] at h ⊢
        obtain ⟨pre, hpre⟩ := ih _ h
        refine ⟨SelEvent.think tr :: pre, ?_⟩
        simpa using congrArg (fun l => SelEvent.think tr :: l) hpre
    · simp [coordLoop, hA] at h

/-- A blocked run of the coordinator loop consumed every scheduled event:
absent a dead state and a closure report, the loop never stops on its own. -/
theorem coordLoop_blocked_consumed_all {σ : Type} (A : Algo σ) (c : σ)
    (evs : List SelEvent) (h : (coordLoop A c evs).exit = LoopExit.blocked) :
    (coordLoop A c evs).leftover = [] := by
  induction evs generalizing c with
  | nil =>
    cases hA : A.is_dead c
    · simp [coordLoop, hA]
    · simp [coordLoop, hA] at h
  | cons ev rest ih =>
    cases hA : A.is_dead c
    · cases ev with
      | msg m =>
        cases m with
        | none => simp [coordLoop, hA] at h
        | some mm =>
          simp only [coordLoop, hA, Bool.false_eq_true, if_false] at h ⊢
          exact ih _ h
      | think tr =>
        simp only [coordLoop, hA, Bool.false_eq_true, if_false] at h ⊢
        exact ih _ h
    · simp [coordLoop, hA] at h

/-- C1: the coordinator loop terminates exactly when the command channel
reports closure or the algorithm state reports dead; a dead state terminates
immediately with nothing dispatched and nothing consumed; a closure report
terminates with the remaining scheduled events unconsumed and nothing
dispatched after the current iteration; a dead exit only occurs at a dead
state, a closed exit only after consuming a closure report, and a run that
does not terminate has merely exhausted its scheduled events. -/
theorem coordinator_termination {σ : Type} (A : Algo σ) (c : σ)
    (evs : List SelEvent) :
    (A.is_dead c = true →
      coordLoop A c evs = ⟨c, [], LoopExit.deadExit, evs⟩) ∧
    (∀ rest, A.is_dead c = false → evs = SelEvent.msg none :: rest →
      coordLoop A c evs =
        ⟨(A.think c).st,
         (A.think c).outs.map CAct.emit ++ (A.think c).tasks.map CAct.dispatch,
         LoopExit.closed, rest⟩) ∧
    ((coordLoop A c evs).exit = LoopExit.deadExit →
      A.is_dead (coordLoop A c evs).final = true) ∧
    ((coordLoop A c evs).exit = LoopExit.closed →
      ∃ pre, evs = pre ++ SelEvent.msg none :: (coordLoop A c evs).leftover) ∧
    ((coordLoop A c evs).exit = LoopExit.blocked →
      (coordLoop A c evs).leftover = []) := by
  refine ⟨?_, ?_, coordLoop_exit_dead_final A c evs,
    coordLoop_exit_closed_consumed A c evs,
    coordLoop_blocked_consumed_all A c evs⟩
  · intro h
    cases evs <;> simp [coordLoop, h]
  · intro rest h hevs
    subst hevs
    simp [coordLoop, h]

/-- Witness for `coordinator_termination`: a dead state terminates the
concrete loop at once, and a closure report terminates it after one
iteration. -/
theorem coordinator_termination_witness :
    (coordLoop algoA 5 [SelEvent.think 1] =
      ⟨5, [], LoopExit.deadExit, [SelEvent.think 1]⟩) ∧
    (coordLoop algoA 0 [SelEvent.msg none] =
      ⟨0, [CAct.emit (0, 0), CAct.dispatch 0], LoopExit.closed, []⟩) :=
  ⟨(coordinator_termination algoA 5 [SelEvent.think 1]).1 (by decide),
   (coordinator_termination algoA 0 [SelEvent.msg none]).2.1 [] (by decide) rfl⟩

/-- C5: every trace of the coordinator loop follows the iteration order of
the spec — ready outputs emitted first, then new tasks dispatched in emission
order, and only then one event consumed at the suspension point. -/
theorem coordinator_iteration_order {σ : Type} (A : Algo σ) (c : σ)
    (evs : List SelEvent) : SpecOrder A c (coordLoop A c evs).trace := by
  induction evs generalizing c with
  | nil =>
    cases hA : A.is_dead c
    · simpa [coordLoop, hA] using SpecOrder.lastIter c hA
    · simpa [coordLoop, hA] using SpecOrder.deadStop c hA
  | cons ev rest ih =>
    cases hA : A.is_dead c
    · cases ev with
      | msg m =>
        cases m with
        | none => simpa [coordLoop, hA] using SpecOrder.lastIter c hA
        | some mm =>
          have hstep := SpecOrder.stepMsg c mm _ hA (ih (A.message (A.think c).st mm))
          simpa [coordLoop, hA, List.append_assoc] using hstep
      | think tr =>
        have hstep := SpecOrder.stepThink c tr _ hA (ih (A.think_done (A.think c).st tr))
        simpa [coordLoop, hA, List.append_assoc] using hstep
    · simpa [coordLoop, hA] using SpecOrder.deadStop c hA

/-- C6: each worker acquires every supplied task once, in order, and emits
exactly one result per acquired task — the executed task's result, in order;
on a closed (exhausted) supply it exits cleanly with an empty trace, never
emitting a result for a task it did not acquire. This holds both for the
inner worker loop (`thinker`) and for the pool-unit relay loop
(`poolUnit`). -/
theorem worker_one_result_per_task (exec : Thinker → ThinkResult)
    (supply : List Thinker) :
    acquired (thinker exec supply) = supply ∧
    emitted (thinker exec supply) = supply.map exec ∧
    thinker exec [] = [] ∧
    acquired (poolUnit exec supply) = supply ∧
    emitted (poolUnit exec supply) = supply.map exec ∧
    poolUnit exec [] = [] := by
  refine ⟨?_, ?_, rfl, ?_, ?_, rfl⟩ <;>
  · induction supply with
    | nil => rfl
    | cons t rest ih => simp [thinker, poolUnit, acquired, emitted, ih]

/-- The spawn loop creates exactly as many worker units as its counter. -/
theorem spawnWorkers_length (tc rc n : Nat) :
    (spawnWorkers tc rc n).length = n := by
  induction n with
  | zero => rfl
  | succ n ih => simp [spawnWorkers, ih]

/-- Every spawned worker unit holds the two shared channel endpoints. -/
theorem spawnWorkers_mem (tc rc n : Nat) (u : WorkerUnit)
    (hu : u ∈ spawnWorkers tc rc n) :
    u.taskChanId = tc ∧ u.resultChanId = rc := by
  induction n with
  | zero => simp [spawnWorkers] at hu
  | succ n ih =>
    simp only [spawnWorkers, List.mem_append, List.mem_singleton] at hu
    rcases hu with hu | hu
    · exact ih hu
    · subst hu
      exact ⟨rfl, rfl⟩

/-- C8: for every options with `threads = N ≥ 1`, the pool started by
`bot_thread` consists of exactly `N` worker units, each holding the shared
task channel and the shared result channel. -/
theorem pool_size_is_threads (options : Options) (tc rc : Nat)
    (_h : 1 ≤ options.threads) :
    (botThreadPool options tc rc).length = options.threads ∧
    ∀ u ∈ botThreadPool options tc rc,
      u.taskChanId = tc ∧ u.resultChanId = rc :=
  ⟨spawnWorkers_length tc rc options.threads,
   fun u hu => spawnWorkers_mem tc rc options.threads u hu⟩

/-- Witness for `pool_size_is_threads` at `threads = 2`. -/
theorem pool_size_is_threads_witness :
    (botThreadPool ⟨2⟩ 0 1).length = 2 :=
  (pool_size_is_threads ⟨2⟩ 0 1 (by decide)).1

end CC
